import Mathlib

/-!
Shallow embedding of the status/install subsystem of `bin/system_manager.py`:
the tool registry, the version-source backends, the status classification,
the concurrent reconciliation phase, the install orchestrator and the
documentation generator, together with theorems settling the specification
claims about them.

External effects (subprocess execution, HTTP requests) are modelled by
explicit environment functions mapping a request to its observable outcome.
For a subprocess environment, `none` models `FileNotFoundError` being raised
by `subprocess.run` (the executable is absent).  Python exceptions that can
escape a function are modelled with `Except PyErr`.
-/

namespace SystemManager

/-- Python truthiness of an `Optional[str]` value: `None` and the empty
string are falsy, every other string is truthy.  The source tests presence
of a version with `if current:` and `if latest and ...:`, i.e. by
truthiness. -/
def pyTruthy : Option String → Bool
  | none => false
  | some s => !(s == "")

/-- Python exception classes raised by the embedded code. -/
inductive PyErr where
  | fileNotFoundError
  | reError
  | attributeError
  | keyError
  | indexError
  | requestException
  deriving DecidableEq, Repr

/-- Observable outcome of a completed `subprocess.run` call. -/
structure ProcResult where
  returncode : Int
  stdout : String
  deriving DecidableEq, Repr

/-- A subprocess environment: maps an argv vector to the completed process,
or to `none` when executing it raises `FileNotFoundError`. -/
def SubprocEnv : Type := List String → Option ProcResult

/-- `Python: hay.startswith-style prefix test on character lists.` -/
def charsStartWith : List Char → List Char → Bool
  | _, [] => true
  | [], _ :: _ => false
  | a :: as, b :: bs => a == b && charsStartWith as bs

/-- Substring search on character lists. -/
def charsContains : List Char → List Char → Bool
  | [], needle => needle.isEmpty
  | h :: t, needle => charsStartWith (h :: t) needle || charsContains t needle

/-- Python `needle in hay` on strings. -/
def pyIn (needle hay : String) : Bool :=
  charsContains hay.toList needle.toList

/-- Python `str.strip()`: drop leading and trailing whitespace. -/
def pyStrip (s : String) : String :=
  String.mk (((s.toList.dropWhile Char.isWhitespace).reverse.dropWhile
    Char.isWhitespace).reverse)

/-- Split a character list at every character satisfying `p`, keeping empty
fields. -/
def splitOnPred (p : Char → Bool) : List Char → List (List Char)
  | [] => [[]]
  | c :: rest =>
    match splitOnPred p rest with
    | [] => [[]]
    | grp :: rest2 => if p c then [] :: grp :: rest2 else (c :: grp) :: rest2

/-- Python `str.splitlines()` (newline-separated, no trailing empty line). -/
def pySplitlines (s : String) : List String :=
  if s == "" then []
  else
    let parts := (splitOnPred (fun c => c == '\n') s.toList).map String.mk
    if s.toList.getLast? == some '\n' then parts.dropLast else parts

/-- Python `str.split()` with no argument: split on whitespace runs,
discarding empty fields. -/
def pySplitWs (s : String) : List String :=
  ((splitOnPred Char.isWhitespace s.toList).map String.mk).filter (fun t => !(t == ""))

-- --- Tool registry ---

/-- The `Tool` dataclass of the registry. -/
structure Tool where
  name : String
  manager : String
  description : String
  binary : String := ""
  context : String := "General"
  deriving DecidableEq, Repr

/-- The `binary_name` property: `self.binary if self.binary else self.name`. -/
def Tool.binary_name (t : Tool) : String :=
  if t.binary == "" then t.name else t.binary

/-- A version-source backend: the three-operation capability contract of a
`PackageManager`.  Each concrete backend is one such record; the record
fields are the observable input/output behaviour of its operations in a
fixed external environment. -/
structure PkgManager where
  get_installed_version : String → String → Option String
  get_latest_version : String → Option String
  install : String → Bool

/-- The ten keys of the `MANAGERS` dict. -/
def MANAGER_KEYS : List String :=
  ["apt", "snap", "pip", "cargo", "npm", "luarocks", "gem", "composer", "dotnet", "sdk"]

/-- The `TOOLS` registry list, verbatim from the source (the commented-out
composer/dotnet/sdk entries are omitted, as in the source). -/
def TOOLS : List Tool :=
  [ { name := "git", manager := "apt", description := "Version control", context := "Core" },
    { name := "curl", manager := "apt", description := "URL transfer tool", context := "Core" },
    { name := "ripgrep", manager := "apt", description := "Fast search (rg)", binary := "rg", context := "Core" },
    { name := "inotify-tools", manager := "apt", description := "Filesystem monitoring", context := "Core" },
    { name := "pass", manager := "apt", description := "Password manager", context := "Core" },
    { name := "wl-clipboard", manager := "apt", description := "Wayland clipboard", context := "Core" },
    { name := "python3-venv", manager := "apt", description := "Virtual environments", context := "Python" },
    { name := "rich", manager := "pip", description := "Terminal formatting", context := "Python" },
    { name := "requests", manager := "pip", description := "HTTP library", context := "Python" },
    { name := "pynvim", manager := "pip", description := "Neovim Python client", context := "Python" },
    { name := "neovim", manager := "apt", description := "Text Editor", binary := "nvim", context := "Editor" },
    { name := "tree-sitter-cli", manager := "cargo", description := "Parser generator", context := "Editor" },
    { name := "glow", manager := "apt", description := "Markdown renderer", context := "Editor" },
    { name := "build-essential", manager := "apt", description := "GCC/Make", context := "Languages" },
    { name := "cmake", manager := "apt", description := "Build system", context := "Languages" },
    { name := "nodejs", manager := "apt", description := "JS Runtime", context := "Languages" },
    { name := "npm", manager := "apt", description := "JS Package Manager", context := "Languages" },
    { name := "luarocks", manager := "apt", description := "Lua Package Manager", context := "Languages" },
    { name := "typora", manager := "snap", description := "Markdown Editor", context := "Apps" },
    { name := "docker", manager := "snap", description := "Container Engine", context := "Apps" },
    { name := "tree", manager := "snap", description := "Directory visualizer", context := "Apps" } ]

-- --- Status classification (`get_tool_status`) ---

def ICON_NOT_INSTALLED : String := "❌"
def ICON_UP_TO_DATE : String := "✅"
def ICON_UPDATE_AVAILABLE : String := "🔄"

/-- The status-symbol computation of `get_tool_status`, verbatim including
the redundant `current == latest` test inside the `latest and current !=
latest` branch (dead code in the source). -/
def status_symbol (current latest : Option String) : String :=
  if pyTruthy current then
    if pyTruthy latest && !(current == latest) then
      if current == latest then ICON_UP_TO_DATE else ICON_UPDATE_AVAILABLE
    else ICON_UP_TO_DATE
  else ICON_NOT_INSTALLED

/-- Python `v if v else d` for an optional string. -/
def pyDisplay (o : Option String) (d : String) : String :=
  match o with
  | some s => if s == "" then d else s
  | none => d

/-- The result dict built by `get_tool_status`.  The error branch of the
source stores the marker under key `"status"`, the success branch stores the
icon under key `"status_icon"`; the two optional fields record which key is
present in the dict. -/
structure ProbeResult where
  tool : Tool
  current : String
  latest : String
  status_icon : Option String
  status : Option String
  deriving DecidableEq, Repr

/-- `get_tool_status`, parameterised by the manager table (`MANAGERS.get`). -/
def get_tool_status (managers : String → Option PkgManager) (tool : Tool) : ProbeResult :=
  match managers tool.manager with
  | none =>
      { tool := tool, current := "Err", latest := "Err",
        status_icon := none, status := some "Error" }
  | some mgr =>
      { tool := tool,
        current := pyDisplay (mgr.get_installed_version tool.name tool.binary_name) "Not Installed",
        latest := pyDisplay (mgr.get_latest_version tool.name) "Unknown",
        status_icon := some (status_symbol
          (mgr.get_installed_version tool.name tool.binary_name)
          (mgr.get_latest_version tool.name)),
        status := none }

/-- The probe phase of `cmd_status`: `executor.map(get_tool_status, TOOLS)`
collected in input order. -/
def probe_all (managers : String → Option PkgManager) (tools : List Tool) : List ProbeResult :=
  tools.map (get_tool_status managers)

/-- Modelled from the spec: the three-way classification rule of the
reconciliation engine, stated the way the spec states it (`NotInstalled`
when installed absent; `UpdateAvailable` when both present and unequal as
strings; `UpToDate` otherwise). -/
def spec_status_classification (current latest : Option String) : String :=
  if !pyTruthy current then ICON_NOT_INSTALLED
  else if pyTruthy latest && current != latest then ICON_UPDATE_AVAILABLE
  else ICON_UP_TO_DATE

/-- The source's branching (including its dead inner branch) computes
exactly the spec's three-way rule. -/
theorem status_symbol_eq_spec (current latest : Option String) :
    status_symbol current latest = spec_status_classification current latest := by
  unfold status_symbol spec_status_classification
  cases hc : pyTruthy current <;> cases hl : pyTruthy latest <;>
    cases he : current == latest <;> simp [hc, hl, he, bne]

/-- C1: for a tool whose manager resolves, the probe's classification is
exactly: not-installed when the installed version is absent (Python-falsy);
update-available when installed and latest are both present and differ as
strings; up-to-date otherwise (installed present and latest absent or
byte-for-byte equal).  Comparison is string (in)equality via `!=`, with no
semantic-version parsing. -/
theorem claim1_status_classification (managers : String → Option PkgManager)
    (tool : Tool) (mgr : PkgManager) (hmgr : managers tool.manager = some mgr) :
    (get_tool_status managers tool).status_icon
      = some (spec_status_classification
          (mgr.get_installed_version tool.name tool.binary_name)
          (mgr.get_latest_version tool.name)) := by
  simp only [get_tool_status, hmgr]
  exact congrArg some (status_symbol_eq_spec _ _)

/-- A mock backend reporting installed `1.2` and latest `1.2.0`: string
comparison sees them as different, so classification is update-available. -/
def mockMgrDiffer : PkgManager :=
  { get_installed_version := fun _ _ => some "1.2",
    get_latest_version := fun _ => some "1.2.0",
    install := fun _ => true }

def mockManagersDiffer : String → Option PkgManager :=
  fun k => if k = "apt" then some mockMgrDiffer else none

def rgTool : Tool :=
  { name := "ripgrep", manager := "apt", description := "Fast search (rg)",
    binary := "rg", context := "Core" }

/-- Witness for C1: at the registry's `ripgrep` tool with a mock backend
reporting installed `1.2` and latest `1.2.0`, the probe classifies
update-available (byte-for-byte inequality, no semantic-version parsing). -/
theorem claim1_status_classification_witness :
    mockManagersDiffer rgTool.manager = some mockMgrDiffer ∧
    (get_tool_status mockManagersDiffer rgTool).status_icon = some ICON_UPDATE_AVAILABLE :=
  ⟨rfl, (claim1_status_classification mockManagersDiffer rgTool mockMgrDiffer rfl).trans rfl⟩

-- --- C2: unknown manager key ---

/-- Removing the element at the length of the left part of an append. -/
theorem eraseIdx_append_cons {α : Type} :
    ∀ (A : List α) (x : α) (B : List α), (A ++ x :: B).eraseIdx A.length = A ++ B := by
  intro A x B
  induction A with
  | nil => simp [List.eraseIdx]
  | cons a as ih => simp [List.eraseIdx, ih]

/-- C2: a tool whose manager key is not in the table probes to the `Error`
result with both versions set to the `"Err"` marker, and the batch results
of all other tools are unchanged: the batch is the per-tool map, so the
surrounding tools' results are exactly what they would be with the
unresolvable entry removed. -/
theorem claim2_unknown_manager_isolated (managers : String → Option PkgManager)
    (tool : Tool) (pre post : List Tool) (hmgr : managers tool.manager = none) :
    get_tool_status managers tool
      = { tool := tool, current := "Err", latest := "Err",
          status_icon := none, status := some "Error" } ∧
    probe_all managers (pre ++ tool :: post)
      = probe_all managers pre
          ++ { tool := tool, current := "Err", latest := "Err",
               status_icon := none, status := some "Error" } :: probe_all managers post ∧
    (probe_all managers (pre ++ tool :: post)).eraseIdx pre.length
      = probe_all managers (pre ++ post) := by
  have h0 : get_tool_status managers tool
      = { tool := tool, current := "Err", latest := "Err",
          status_icon := none, status := some "Error" } := by
    simp [get_tool_status, hmgr]
  refine ⟨h0, ?_, ?_⟩
  · simp [probe_all, h0]
  · have h1 : probe_all managers (pre ++ tool :: post)
        = probe_all managers pre ++ get_tool_status managers tool :: probe_all managers post := by
      simp [probe_all]
    rw [h1]
    have h2 : pre.length = (probe_all managers pre).length := by simp [probe_all]
    rw [h2, eraseIdx_append_cons]
    simp [probe_all]

def unknownMgrTool : Tool :=
  { name := "foo", manager := "brew", description := "demo", binary := "", context := "General" }

/-- Witness for C2: with the `brew` key unregistered, the single-tool batch
probes to the `Error` marker result and erasing it recovers the empty
batch's results. -/
theorem claim2_unknown_manager_isolated_witness :
    (fun (_ : String) => (none : Option PkgManager)) unknownMgrTool.manager = none ∧
    probe_all (fun _ => none) ([] ++ unknownMgrTool :: [])
      = [{ tool := unknownMgrTool, current := "Err", latest := "Err",
           status_icon := none, status := some "Error" }] :=
  ⟨rfl, by
    have h := claim2_unknown_manager_isolated (fun _ => none) unknownMgrTool [] [] rfl
    simpa using h.2.1⟩

-- --- C3: table rendering of `cmd_status` ---

/-- One table row of `cmd_status`: the row constructor reads
`res["status_icon"]`, which raises `KeyError` on the error-branch dict
(that dict stores its marker under `"status"` instead). -/
def render_row (res : ProbeResult) : Except PyErr (List String) :=
  match res.status_icon with
  | some icon =>
      .ok [icon, res.tool.name, res.tool.manager, res.current, res.latest, res.tool.description]
  | none => .error .keyError

/-- The row-building loop of `cmd_status`; an uncaught exception aborts it. -/
def render_table : List ProbeResult → Except PyErr (List (List String))
  | [] => .ok []
  | r :: rs =>
    match render_row r with
    | .error e => .error e
    | .ok row =>
      match render_table rs with
      | .error e => .error e
      | .ok rows => .ok (row :: rows)

/-- `cmd_status`: probe all tools, then render one row per result. -/
def cmd_status (managers : String → Option PkgManager) (tools : List Tool) :
    Except PyErr (List (List String)) :=
  render_table (probe_all managers tools)

/-- C3 fails on the code: a registry entry with an unresolvable manager key
probes to the dict `{.., "status": "Error"}`, but the rendering loop reads
`res["status_icon"]`, a key that dict does not have, so `cmd_status` raises
`KeyError` instead of rendering the row and exiting 0.  The second conjunct
shows the probe itself did produce the intended `Error` marker, so the
mismatch is between the error dict's key and the renderer. -/
theorem claim3_status_row_key_bug :
    cmd_status (fun _ => none) [unknownMgrTool] = .error PyErr.keyError ∧
    (get_tool_status (fun _ => none) unknownMgrTool).status = some "Error" :=
  ⟨rfl, rfl⟩

-- --- C4: bounded worker pool order preservation ---

/-- One completion step of the worker pool: the worker that probed the input
at index `i` writes its result into output slot `i` (slot-by-input-index
collection, as `executor.map` guarantees). -/
def poolStep {α β : Type} (f : α → β) (xs : List α) (acc : List (Option β)) (i : Nat) :
    List (Option β) :=
  match xs[i]? with
  | some a => acc.set i (some (f a))
  | none => acc

/-- The reconciliation fan-out: probe jobs complete in the order given by
`order` (any permutation of the input indices), each writing its result into
the slot of its input index; the slots are read out in index order. -/
def runPool {α β : Type} (f : α → β) (xs : List α) (order : List Nat) : List (Option β) :=
  order.foldl (poolStep f xs) (List.replicate xs.length none)

theorem poolStep_length {α β : Type} (f : α → β) (xs : List α) (acc : List (Option β))
    (i : Nat) : (poolStep f xs acc i).length = acc.length := by
  unfold poolStep
  cases xs[i]? <;> simp

theorem foldl_poolStep_length {α β : Type} (f : α → β) (xs : List α) :
    ∀ (order : List Nat) (acc : List (Option β)),
      (order.foldl (poolStep f xs) acc).length = acc.length := by
  intro order
  induction order with
  | nil => intro acc; rfl
  | cons i rest ih => intro acc; rw [List.foldl_cons, ih, poolStep_length]

theorem foldl_poolStep_getElem_not_mem {α β : Type} (f : α → β) (xs : List α) :
    ∀ (order : List Nat) (acc : List (Option β)) (j : Nat), j ∉ order →
      (order.foldl (poolStep f xs) acc)[j]? = acc[j]? := by
  intro order
  induction order with
  | nil => intro acc j _; rfl
  | cons i rest ih =>
    intro acc j hj
    have hji : j ≠ i := fun h => hj (h ▸ List.mem_cons_self i rest)
    have hjr : j ∉ rest := fun h => hj (List.mem_cons_of_mem i h)
    rw [List.foldl_cons, ih _ j hjr]
    unfold poolStep
    cases xs[i]? with
    | none => rfl
    | some a => exact List.getElem?_set_ne (Ne.symm hji)

theorem foldl_poolStep_getElem_mem {α β : Type} (f : α → β) (xs : List α) :
    ∀ (order : List Nat) (acc : List (Option β)) (j : Nat) (hj : j < xs.length),
      acc.length = xs.length → j ∈ order →
      (order.foldl (poolStep f xs) acc)[j]? = some (some (f (xs.get ⟨j, hj⟩))) := by
  intro order
  induction order with
  | nil => intro acc j hj _ hmem; exact absurd hmem (List.not_mem_nil j)
  | cons i rest ih =>
    intro acc j hj hlen hmem
    rw [List.foldl_cons]
    by_cases hr : j ∈ rest
    · exact ih _ j hj (by rw [poolStep_length, hlen]) hr
    · have hji : j = i := by
        rcases List.mem_cons.mp hmem with h | h
        · exact h
        · exact absurd h hr
      subst hji
      rw [foldl_poolStep_getElem_not_mem f xs rest _ j hr]
      unfold poolStep
      rw [List.getElem?_eq_getElem hj]
      have : j < acc.length := by rw [hlen]; exact hj
      rw [List.getElem?_set_self this]
      simp

/-- The pool result is the in-order map of the probe function, whatever the
completion order. -/
theorem runPool_eq_map {α β : Type} (f : α → β) (xs : List α) (order : List Nat)
    (hperm : order.Perm (List.range xs.length)) :
    runPool f xs order = xs.map (fun a => some (f a)) := by
  apply List.ext_getElem?
  intro j
  by_cases hj : j < xs.length
  · have hmem : j ∈ order := by
      rw [hperm.mem_iff, List.mem_range]
      exact hj
    rw [runPool, foldl_poolStep_getElem_mem f xs order _ j hj (by simp) hmem]
    rw [List.getElem?_map, List.getElem?_eq_getElem hj]
    rfl
  · have h1 : (runPool f xs order).length ≤ j := by
      rw [runPool, foldl_poolStep_length, List.length_replicate]
      exact Nat.le_of_not_lt hj
    have h2 : (xs.map (fun a => some (f a))).length ≤ j := by
      rw [List.length_map]
      exact Nat.le_of_not_lt hj
    rw [List.getElem?_eq_none h1, List.getElem?_eq_none h2]

/-- The probe of `get_tool_status` always carries its input tool in the
`"tool"` field of the result. -/
theorem get_tool_status_tool (managers : String → Option PkgManager) (t : Tool) :
    (get_tool_status managers t).tool = t := by
  unfold get_tool_status
  cases managers t.manager <;> rfl

/-- C4: for every non-empty tool list, the reconciliation phase run under
any completion order of the bounded pool yields a slot list equal to the
in-order map of the probe; in particular the output length equals the input
length and the i-th output is the probe result of the i-th input tool. -/
theorem claim4_order_preservation (managers : String → Option PkgManager)
    (tools : List Tool) (order : List Nat) (hne : tools ≠ [])
    (hperm : order.Perm (List.range tools.length)) :
    runPool (get_tool_status managers) tools order
        = tools.map (fun t => some (get_tool_status managers t)) ∧
    (runPool (get_tool_status managers) tools order).length = tools.length ∧
    ∀ (i : Nat) (h : i < tools.length),
      (runPool (get_tool_status managers) tools order)[i]?
          = some (some (get_tool_status managers (tools.get ⟨i, h⟩))) ∧
      (get_tool_status managers (tools.get ⟨i, h⟩)).tool = tools.get ⟨i, h⟩ := by
  have hmap := runPool_eq_map (get_tool_status managers) tools order hperm
  refine ⟨hmap, ?_, ?_⟩
  · rw [hmap, List.length_map]
  · intro i h
    constructor
    · rw [hmap, List.getElem?_map, List.getElem?_eq_getElem h]
      rfl
    · exact get_tool_status_tool managers (tools.get ⟨i, h⟩)

def gitTool : Tool :=
  { name := "git", manager := "apt", description := "Version control", context := "Core" }

/-- Witness for C4: a two-tool batch whose second probe completes before the
first still reads out in input order. -/
theorem claim4_order_preservation_witness :
    ([rgTool, gitTool] ≠ ([] : List Tool)) ∧
    ([1, 0].Perm (List.range ([rgTool, gitTool] : List Tool).length)) ∧
    runPool (get_tool_status mockManagersDiffer) [rgTool, gitTool] [1, 0]
      = [rgTool, gitTool].map (fun t => some (get_tool_status mockManagersDiffer t)) :=
  ⟨by decide, by decide,
    (claim4_order_preservation mockManagersDiffer [rgTool, gitTool] [1, 0]
      (by decide) (by decide)).1⟩

-- --- C5/C6: install orchestrator (`cmd_install`) ---

/-- Observable events of one `cmd_install` run, in order: manager-resolution
error, re-probe of the installed version, skip of an installed tool, and an
invocation of the backend's install operation with its reported outcome. -/
inductive InstallEvent where
  | errNoManager (managerKey : String)
  | probe (name : String)
  | skip (name : String)
  | install (name : String) (ok : Bool)
  deriving DecidableEq, Repr

/-- The loop body of `cmd_install` for one tool: resolve the manager
(reporting an error and continuing if that fails), re-probe
`get_installed_version`, skip when a version is present (Python-truthy),
otherwise invoke `install` and record its outcome. -/
def install_step (managers : String → Option PkgManager) (t : Tool) : List InstallEvent :=
  match managers t.manager with
  | none => [.errNoManager t.manager]
  | some mgr =>
    if pyTruthy (mgr.get_installed_version t.name t.binary_name) then
      [.probe t.name, .skip t.name]
    else
      [.probe t.name, .install t.name (mgr.install t.name)]

/-- `cmd_install`: filter out the excluded names, then process the remaining
tools sequentially in registry order, each contributing its events. -/
def cmd_install (managers : String → Option PkgManager) (exclude : List String)
    (tools : List Tool) : List InstallEvent :=
  (tools.filter (fun t => !(exclude.contains t.name))).flatMap (install_step managers)

/-- Names of the tools whose installed version was probed, in event order. -/
def probe_calls (trace : List InstallEvent) : List String :=
  trace.filterMap (fun e => match e with | .probe n => some n | _ => none)

/-- Names passed to a backend `install` invocation, in event order. -/
def install_calls (trace : List InstallEvent) : List String :=
  trace.filterMap (fun e => match e with | .install n _ => some n | _ => none)

/-- The tool's manager key resolves in the manager table. -/
def resolvable (managers : String → Option PkgManager) (t : Tool) : Bool :=
  (managers t.manager).isSome

/-- The tool resolves and its re-probe reports no installed version. -/
def needs_install (managers : String → Option PkgManager) (t : Tool) : Bool :=
  match managers t.manager with
  | none => false
  | some mgr => !pyTruthy (mgr.get_installed_version t.name t.binary_name)

theorem probe_calls_append (a b : List InstallEvent) :
    probe_calls (a ++ b) = probe_calls a ++ probe_calls b :=
  List.filterMap_append a b _

theorem install_calls_append (a b : List InstallEvent) :
    install_calls (a ++ b) = install_calls a ++ install_calls b :=
  List.filterMap_append a b _

theorem probe_calls_step (m : String → Option PkgManager) (t : Tool) :
    probe_calls (install_step m t) = if resolvable m t then [t.name] else [] := by
  unfold resolvable
  cases h : m t.manager with
  | none => simp only [install_step, h]; rfl
  | some mgr =>
    simp only [install_step, h]
    by_cases hp : pyTruthy (mgr.get_installed_version t.name t.binary_name) = true
    · simp [hp, probe_calls]
    · simp [hp, probe_calls]

theorem install_calls_step (m : String → Option PkgManager) (t : Tool) :
    install_calls (install_step m t) = if needs_install m t then [t.name] else [] := by
  unfold needs_install
  cases h : m t.manager with
  | none => simp only [install_step, h]; rfl
  | some mgr =>
    simp only [install_step, h]
    by_cases hp : pyTruthy (mgr.get_installed_version t.name t.binary_name) = true
    · simp [hp, install_calls]
    · simp [hp, install_calls]

theorem cmd_install_cons (m : String → Option PkgManager) (ex : List String)
    (t : Tool) (ts : List Tool) :
    cmd_install m ex (t :: ts)
      = (if ex.contains t.name then [] else install_step m t) ++ cmd_install m ex ts := by
  unfold cmd_install
  rw [List.filter_cons]
  cases hx : ex.contains t.name with
  | true => simp
  | false => simp

theorem install_calls_cmd_install (m : String → Option PkgManager) (ex : List String) :
    ∀ tools : List Tool,
      install_calls (cmd_install m ex tools)
        = (tools.filter (fun t => !(ex.contains t.name) && needs_install m t)).map Tool.name := by
  intro tools
  induction tools with
  | nil => rfl
  | cons t ts ih =>
    rw [cmd_install_cons, install_calls_append, ih, List.filter_cons]
    cases hx : ex.contains t.name with
    | true => simp [install_calls]
    | false =>
      cases hn : needs_install m t with
      | true => simp [install_calls_step, hn]
      | false => simp [install_calls_step, hn]

theorem probe_calls_cmd_install (m : String → Option PkgManager) (ex : List String) :
    ∀ tools : List Tool,
      probe_calls (cmd_install m ex tools)
        = (tools.filter (fun t => !(ex.contains t.name) && resolvable m t)).map Tool.name := by
  intro tools
  induction tools with
  | nil => rfl
  | cons t ts ih =>
    rw [cmd_install_cons, probe_calls_append, ih, List.filter_cons]
    cases hx : ex.contains t.name with
    | true => simp [probe_calls]
    | false =>
      cases hn : resolvable m t with
      | true => simp [probe_calls_step, hn]
      | false => simp [probe_calls_step, hn]

/-- C5: if the orchestrator's re-probe of `get_installed_version` right
before the install attempt reports a present (Python-truthy) version for a
tool, no `install` invocation for that tool ever occurs in the run. -/
theorem claim5_install_skip (m : String → Option PkgManager) (ex : List String)
    (tools : List Tool) (t : Tool) (mgr : PkgManager)
    (hnd : (tools.map Tool.name).Nodup) (ht : t ∈ tools)
    (hmgr : m t.manager = some mgr)
    (hinst : pyTruthy (mgr.get_installed_version t.name t.binary_name) = true) :
    t.name ∉ install_calls (cmd_install m ex tools) := by
  intro hmem
  rw [install_calls_cmd_install] at hmem
  rcases List.mem_map.mp hmem with ⟨t2, ht2, hname⟩
  rcases List.mem_filter.mp ht2 with ⟨ht2mem, hpred⟩
  have heq : t2 = t := List.inj_on_of_nodup_map hnd ht2mem ht hname
  subst heq
  have hneed : needs_install m t2 = true := by
    simp only [Bool.and_eq_true] at hpred
    exact hpred.2
  unfold needs_install at hneed
  rw [hmgr] at hneed
  simp [hinst] at hneed

/-- A mock backend table: `ripgrep` is not installed, everything else is,
and every install attempt fails. -/
def mockInstallMgr : PkgManager :=
  { get_installed_version := fun n _ => if n = "ripgrep" then none else some "2.39.0",
    get_latest_version := fun _ => some "14.1.0",
    install := fun _ => false }

def mockInstallManagers : String → Option PkgManager :=
  fun k => if k = "apt" then some mockInstallMgr else none

/-- Witness for C5: `git` is already installed in the mock environment, so
no install invocation for it occurs during the run. -/
theorem claim5_install_skip_witness :
    (([rgTool, gitTool].map Tool.name).Nodup) ∧
    gitTool ∈ [rgTool, gitTool] ∧
    mockInstallManagers gitTool.manager = some mockInstallMgr ∧
    pyTruthy (mockInstallMgr.get_installed_version gitTool.name gitTool.binary_name) = true ∧
    gitTool.name ∉ install_calls (cmd_install mockInstallManagers [] [rgTool, gitTool]) :=
  ⟨by decide, by decide, rfl, rfl,
    claim5_install_skip mockInstallManagers [] [rgTool, gitTool] gitTool mockInstallMgr
      (by decide) (by decide) rfl rfl⟩

/-- C6: the orchestrator's probe sequence is exactly the non-excluded
resolvable tools in registry order; the install sequence is exactly the
non-excluded resolvable not-installed tools in registry order; excluded
tools are never probed and never installed; a qualifying tool receives
exactly one install invocation; and the sequence of install invocations is
unchanged if backend install outcomes change, so an individual failure does
not prevent processing of subsequent tools. -/
theorem claim6_install_orchestration (m : String → Option PkgManager)
    (ex : List String) (tools : List Tool) (hnd : (tools.map Tool.name).Nodup) :
    probe_calls (cmd_install m ex tools)
        = (tools.filter (fun t => !(ex.contains t.name) && resolvable m t)).map Tool.name ∧
    install_calls (cmd_install m ex tools)
        = (tools.filter (fun t => !(ex.contains t.name) && needs_install m t)).map Tool.name ∧
    (∀ t ∈ tools, ex.contains t.name = true →
        t.name ∉ probe_calls (cmd_install m ex tools) ∧
        t.name ∉ install_calls (cmd_install m ex tools)) ∧
    (∀ t ∈ tools, ex.contains t.name = false → needs_install m t = true →
        (install_calls (cmd_install m ex tools)).count t.name = 1) ∧
    (∀ m2 : String → Option PkgManager,
        (∀ k, m2 k = (m k).map (fun mg =>
          { get_installed_version := mg.get_installed_version,
            get_latest_version := mg.get_latest_version,
            install := fun n => !mg.install n })) →
        install_calls (cmd_install m2 ex tools) = install_calls (cmd_install m ex tools)) := by
  refine ⟨probe_calls_cmd_install m ex tools, install_calls_cmd_install m ex tools, ?_, ?_, ?_⟩
  · intro t ht hex
    constructor
    · intro hmem
      rw [probe_calls_cmd_install] at hmem
      rcases List.mem_map.mp hmem with ⟨t2, ht2, hname⟩
      rcases List.mem_filter.mp ht2 with ⟨ht2mem, hpred⟩
      have heq : t2 = t := List.inj_on_of_nodup_map hnd ht2mem ht hname
      subst heq
      rw [hex] at hpred
      simp at hpred
    · intro hmem
      rw [install_calls_cmd_install] at hmem
      rcases List.mem_map.mp hmem with ⟨t2, ht2, hname⟩
      rcases List.mem_filter.mp ht2 with ⟨ht2mem, hpred⟩
      have heq : t2 = t := List.inj_on_of_nodup_map hnd ht2mem ht hname
      subst heq
      rw [hex] at hpred
      simp at hpred
  · intro t ht hex hneed
    rw [install_calls_cmd_install]
    have hq : (!(ex.contains t.name) && needs_install m t) = true := by
      rw [hex, hneed]
      rfl
    have htf : t ∈ tools.filter (fun t => !(ex.contains t.name) && needs_install m t) :=
      List.mem_filter.mpr ⟨ht, hq⟩
    have hsub : ((tools.filter (fun t => !(ex.contains t.name) && needs_install m t)).map
        Tool.name).Sublist (tools.map Tool.name) :=
      List.Sublist.map Tool.name (List.filter_sublist tools)
    have hle := hsub.count_le t.name
    have hone : (tools.map Tool.name).count t.name = 1 :=
      List.count_eq_one_of_mem hnd (List.mem_map_of_mem Tool.name ht)
    have hpos : 0 < ((tools.filter
        (fun t => !(ex.contains t.name) && needs_install m t)).map Tool.name).count t.name :=
      List.count_pos_iff.mpr (List.mem_map_of_mem Tool.name htf)
    omega
  · intro m2 hm2
    rw [install_calls_cmd_install, install_calls_cmd_install]
    congr 1
    apply List.filter_congr
    intro t _
    have hmk := hm2 t.manager
    unfold needs_install
    cases hc : m t.manager with
    | none => rw [hmk, hc]; rfl
    | some mg => rw [hmk, hc]; rfl

/-- Witness for C6: with the empty exclusion set, `ripgrep` (absent) and
`git` (installed) in the registry, the orchestrator invokes install exactly
once, for `ripgrep`, even though the install attempt itself fails. -/
theorem claim6_install_orchestration_witness :
    (([rgTool, gitTool].map Tool.name).Nodup) ∧
    rgTool ∈ [rgTool, gitTool] ∧
    ([] : List String).contains rgTool.name = false ∧
    needs_install mockInstallManagers rgTool = true ∧
    (install_calls (cmd_install mockInstallManagers [] [rgTool, gitTool])).count
        rgTool.name = 1 :=
  ⟨by decide, by decide, rfl, rfl,
    (claim6_install_orchestration mockInstallManagers [] [rgTool, gitTool]
        (by decide)).2.2.2.1 rgTool (by decide) rfl rfl⟩

-- --- Backend embeddings: Apt, LuaRocks, Gem, Composer ---

/-- `AptManager.get_installed_version`: run
`dpkg-query -W -f=$\x7bVersion\x7d <pkg>`; when it succeeds with non-empty
stripped stdout, return that; `FileNotFoundError` (the query tool itself is
absent) is caught and control falls through to `return None`. -/
def apt_get_installed_version (run : SubprocEnv) (package_name binary_name : String) :
    Except PyErr (Option String) :=
  match run ["dpkg-query", "-W", "-f=$\x7bVersion\x7d", package_name] with
  | none => .ok none
  | some res =>
    if res.returncode == 0 && !(pyStrip res.stdout == "") then .ok (some (pyStrip res.stdout))
    else .ok none

/-- First line containing `"(installed)"`, if any (the `for` loop of
`LuaRocksManager.get_installed_version`). -/
def first_installed_line : List String → Option String
  | [] => none
  | l :: ls => if pyIn "(installed)" l then some l else first_installed_line ls

/-- `LuaRocksManager.get_installed_version`: run `luarocks list <pkg>`, scan
stdout for a line marked `(installed)` and return its first
whitespace-separated token (`line.strip().split()[0]`, whose `[0]` would
raise `IndexError` on an empty split); `FileNotFoundError` is caught and
yields `None`. -/
def luarocks_get_installed_version (run : SubprocEnv) (package_name binary_name : String) :
    Except PyErr (Option String) :=
  match run ["luarocks", "list", package_name] with
  | none => .ok none
  | some res =>
    match first_installed_line (pySplitlines res.stdout) with
    | none => .ok none
    | some line =>
      match (pySplitWs (pyStrip line)).head? with
      | some tok => .ok (some tok)
      | none => .error .indexError

/-- The regex literal of `GemManager.get_installed_version`, verbatim:
`\(([\d.]+\)` — the capture group opened by the bare `(` is never closed,
because the closing parO is escaped as `\)`. -/
def GEM_LIST_PATTERN : String := "\\(([\\d.]+\\)"

/-- Scanner for the group structure of a Python `re` pattern: tracks escape
sequences, character classes (parentheses inside `[...]` are literals), and
the nesting depth of unescaped groups.  An unterminated group, an unmatched
`)`, a trailing backslash or an unterminated class makes the pattern
invalid, and `re.search` then raises `re.error` when compiling the pattern,
before looking at the subject string. -/
def groupScan : List Char → Bool → Nat → Bool
  | [], inClass, depth => !inClass && depth == 0
  | ['\\'], _, _ => false
  | '\\' :: _ :: rest, inClass, depth => groupScan rest inClass depth
  | c :: rest, true, depth =>
    if c == ']' then groupScan rest false depth else groupScan rest true depth
  | c :: rest, false, depth =>
    if c == '[' then groupScan rest true depth
    else if c == '(' then groupScan rest false (depth + 1)
    else if c == ')' then
      match depth with
      | 0 => false
      | d + 1 => groupScan rest false d
    else groupScan rest false depth

/-- A pattern's unescaped groups are balanced (what `re.compile` checks
before any matching can happen). -/
def regexGroupsOk (pat : String) : Bool := groupScan pat.toList false 0

/-- `GemManager.get_installed_version`: run `gem list -e <pkg>`; when it
succeeds and the package name occurs in stdout, evaluate
`re.search(GEM_LIST_PATTERN, stdout)`.  `re.search` compiles its pattern
first: on an invalid pattern it raises `re.error`, which the surrounding
`except FileNotFoundError` does not catch, so the exception escapes.  The
behaviour of a successful search-and-group is abstracted by the `search1`
parameter (it is unreachable for this pattern). -/
def gem_get_installed_version (run : SubprocEnv) (search1 : String → Option String)
    (package_name binary_name : String) : Except PyErr (Option String) :=
  match run ["gem", "list", "-e", package_name] with
  | none => .ok none
  | some res =>
    if res.returncode == 0 && pyIn package_name res.stdout then
      if regexGroupsOk GEM_LIST_PATTERN then .ok (search1 res.stdout)
      else .error .reError
    else .ok none

/-- A Packagist response as consumed by the source: the HTTP status code and
the keys of `data["package"]["versions"]` in their JSON order. -/
structure PackagistResp where
  status_code : Int
  versions : List String
  deriving DecidableEq, Repr

/-- The stable-version filter of `ComposerManager.get_latest_version`:
keeps tags containing none of `dev`, `beta`, `alpha`. -/
def is_stable_tag (v : String) : Bool :=
  !pyIn "dev" v && !pyIn "beta" v && !pyIn "alpha" v

/-- The `try` body of `ComposerManager.get_latest_version`: on a 200
response it computes `stable_versions` and then executes
`return list(versions.key())[0]` — `dict` has no attribute `key`, so that
line raises `AttributeError`; with no stable version the `if` falls through
and the function returns `None`. -/
def composer_latest_body (http : String → Option PackagistResp) (package_name : String) :
    Except PyErr (Option String) :=
  match http ("https://packagist.org/packages/" ++ package_name ++ ".json") with
  | none => .error .requestException
  | some resp =>
    if resp.status_code == 200 then
      if !(resp.versions.filter is_stable_tag).isEmpty then
        .error .attributeError
      else .ok none
    else .ok none

/-- `ComposerManager.get_latest_version`: the whole body is wrapped in
`try: ... except Exception: pass`, so every exception (including the
`AttributeError` above) degrades to `None`. -/
def composer_get_latest_version (http : String → Option PackagistResp)
    (package_name : String) : Option String :=
  match composer_latest_body http package_name with
  | .ok v => v
  | .error _ => none

-- --- C7: the gem backend propagates an exception ---

/-- An environment in which `gem list -e rails` exits 0 and reports the gem
as installed. -/
def gemEnvRails : SubprocEnv := fun _ => some { returncode := 0, stdout := "rails (7.1.2)\n" }

/-- C7 fails on the code for the gem backend: its regex literal
`\(([\d.]+\)` has an unterminated capture group, so as soon as `gem list`
succeeds and the package name occurs in the output, `re.search` raises
`re.error`, which the handler (`except FileNotFoundError`) does not catch —
the probe propagates an exception to the caller instead of degrading to an
absent version, whatever the match semantics `search1` would have been. -/
theorem claim7_gem_regex_raises :
    regexGroupsOk GEM_LIST_PATTERN = false ∧
    ∀ search1 : String → Option String,
      gem_get_installed_version gemEnvRails search1 "rails" "rails" = .error PyErr.reError := by
  refine ⟨rfl, ?_⟩
  intro search1
  rfl

-- --- C8: the composer backend never returns the stable version ---

/-- A Packagist 200 response whose version keys include two stable tags. -/
def packagistEnv : String → Option PackagistResp :=
  fun _ => some { status_code := 200, versions := ["dev-master", "11.5.2", "11.5.1"] }

/-- C8 fails on the code: on a successful Packagist response that does
contain stable (non-dev/beta/alpha) versions, the body raises
`AttributeError` at `list(versions.key())[0]` (`dict` has no method `key`),
the blanket `except` swallows it, and the function returns `None` — it
never returns any stable version, let alone the highest-precedence one. -/
theorem claim8_composer_latest_lost :
    (["dev-master", "11.5.2", "11.5.1"].filter is_stable_tag) = ["11.5.2", "11.5.1"] ∧
    composer_latest_body packagistEnv "phpunit/phpunit" = .error PyErr.attributeError ∧
    composer_get_latest_version packagistEnv "phpunit/phpunit" = none :=
  ⟨rfl, rfl, rfl⟩

-- --- C9: command-not-found behaves as not-installed ---

/-- C9: for the subprocess-backed installed-version checks, absence of the
underlying command (`run` yields `FileNotFoundError`) produces `.ok none` —
an absent version, not an error — and is observationally identical to the
command reporting the package as not installed. -/
theorem claim9_command_absent_as_not_installed
    (runA runL runG runA2 runL2 : SubprocEnv) (pkg bin : String)
    (hA : runA ["dpkg-query", "-W", "-f=$\x7bVersion\x7d", pkg] = none)
    (hL : runL ["luarocks", "list", pkg] = none)
    (hG : runG ["gem", "list", "-e", pkg] = none)
    (hA2 : runA2 ["dpkg-query", "-W", "-f=$\x7bVersion\x7d", pkg]
      = some { returncode := 1, stdout := "" })
    (hL2 : runL2 ["luarocks", "list", pkg]
      = some { returncode := 0, stdout := "installed rocks:\nnone\n" }) :
    apt_get_installed_version runA pkg bin = .ok none ∧
    luarocks_get_installed_version runL pkg bin = .ok none ∧
    (∀ search1, gem_get_installed_version runG search1 pkg bin = .ok none) ∧
    apt_get_installed_version runA2 pkg bin = apt_get_installed_version runA pkg bin ∧
    luarocks_get_installed_version runL2 pkg bin = luarocks_get_installed_version runL pkg bin := by
  refine ⟨?_, ?_, ?_, ?_, ?_⟩
  · unfold apt_get_installed_version
    rw [hA]
  · unfold luarocks_get_installed_version
    rw [hL]
  · intro search1
    unfold gem_get_installed_version
    rw [hG]
  · unfold apt_get_installed_version
    rw [hA, hA2]
    rfl
  · unfold luarocks_get_installed_version
    rw [hL, hL2]
    rfl

def absentEnv : SubprocEnv := fun _ => none

def aptNotInstalledEnv : SubprocEnv := fun _ => some { returncode := 1, stdout := "" }

def luaNotInstalledEnv : SubprocEnv :=
  fun _ => some { returncode := 0, stdout := "installed rocks:\nnone\n" }

/-- Witness for C9 at `ripgrep`/`rg` with concrete environments: an absent
`dpkg-query` yields an absent installed version, not an error. -/
theorem claim9_command_absent_as_not_installed_witness :
    absentEnv ["dpkg-query", "-W", "-f=$\x7bVersion\x7d", "ripgrep"] = none ∧
    absentEnv ["luarocks", "list", "ripgrep"] = none ∧
    absentEnv ["gem", "list", "-e", "ripgrep"] = none ∧
    aptNotInstalledEnv ["dpkg-query", "-W", "-f=$\x7bVersion\x7d", "ripgrep"]
      = some { returncode := 1, stdout := "" } ∧
    luaNotInstalledEnv ["luarocks", "list", "ripgrep"]
      = some { returncode := 0, stdout := "installed rocks:\nnone\n" } ∧
    apt_get_installed_version absentEnv "ripgrep" "rg" = .ok none :=
  ⟨rfl, rfl, rfl, rfl, rfl,
    (claim9_command_absent_as_not_installed absentEnv absentEnv absentEnv
      aptNotInstalledEnv luaNotInstalledEnv "ripgrep" "rg" rfl rfl rfl rfl rfl).1⟩

-- --- C10: `cmd_generate_docs` grouping ---

/-- The context labels of `cmd_generate_docs`:
`sorted(list(set(t.context for t in TOOLS)))` — the distinct context values,
in ascending lexicographic order. -/
def doc_contexts (tools : List Tool) : List String :=
  List.insertionSort (fun a b => a ≤ b) ((tools.map Tool.context).dedup)

/-- The sections of the generated document, in label order; each section
holds the registry-order rows `[t for t in TOOLS if t.context == ctx]`. -/
def doc_sections (tools : List Tool) : List (String × List Tool) :=
  (doc_contexts tools).map (fun ctx => (ctx, tools.filter (fun t => t.context == ctx)))

theorem doc_contexts_nodup (tools : List Tool) : (doc_contexts tools).Nodup :=
  (List.perm_insertionSort (fun a b : String => a ≤ b)
    ((tools.map Tool.context).dedup)).symm.nodup (List.nodup_dedup _)

theorem mem_doc_contexts (tools : List Tool) (c : String) :
    c ∈ doc_contexts tools ↔ c ∈ tools.map Tool.context := by
  unfold doc_contexts
  rw [(List.perm_insertionSort _ _).mem_iff, List.mem_dedup]

theorem doc_contexts_sorted (tools : List Tool) :
    (doc_contexts tools).Sorted (fun a b : String => a < b) := by
  have hle : List.Pairwise (fun a b : String => a ≤ b) (doc_contexts tools) :=
    List.sorted_insertionSort _ _
  have hne : List.Pairwise (fun a b : String => a ≠ b) (doc_contexts tools) :=
    doc_contexts_nodup tools
  exact (hle.and hne).imp (fun h => lt_of_le_of_ne h.1 h.2)

/-- Splitting a list into the per-label filter groups of a duplicate-free
label list covering every element's label is a permutation of the list. -/
theorem flatten_filter_perm :
    ∀ (labels : List String) (tools : List Tool), labels.Nodup →
      (∀ t ∈ tools, t.context ∈ labels) →
      ((labels.map (fun c => tools.filter (fun t => t.context == c))).flatten).Perm tools := by
  intro labels
  induction labels with
  | nil =>
    intro tools _ hcov
    cases tools with
    | nil => simp
    | cons t ts => exact absurd (hcov t (List.mem_cons_self t ts)) (List.not_mem_nil _)
  | cons c cs ih =>
    intro tools hnd hcov
    rw [List.map_cons, List.flatten_cons]
    have hnd2 := List.nodup_cons.mp hnd
    have hmapeq : cs.map (fun c2 => tools.filter (fun t => t.context == c2))
        = cs.map (fun c2 => (tools.filter (fun t => !(t.context == c))).filter
            (fun t => t.context == c2)) := by
      apply List.map_congr_left
      intro c2 hc2
      rw [List.filter_filter]
      apply List.filter_congr
      intro t _
      cases ht : t.context == c2 with
      | false => simp
      | true =>
        have hctx : t.context = c2 := by simpa using ht
        have hcne : (t.context == c) = false := by
          rw [hctx]
          have : c2 ≠ c := fun h => hnd2.1 (h ▸ hc2)
          simpa using this
        simp [hcne]
    rw [hmapeq]
    have hcov2 : ∀ t ∈ tools.filter (fun t => !(t.context == c)), t.context ∈ cs := by
      intro t htm
      rcases List.mem_filter.mp htm with ⟨htools, hnotc⟩
      rcases List.mem_cons.mp (hcov t htools) with h | h
      · exfalso
        rw [h] at hnotc
        simp at hnotc
      · exact h
    have hperm2 := ih (tools.filter (fun t => !(t.context == c))) hnd2.2 hcov2
    exact ((hperm2.append_left (tools.filter (fun t => t.context == c))).trans
      (List.filter_append_perm _ tools))

/-- C10: the generated document has one section per distinct context value,
with section labels strictly ascending lexicographically and exactly the
context values occurring in the registry; flattening the sections gives back
every registry tool exactly once (a permutation of the registry); and each
section's rows are a registry-order sublist consisting only of tools of that
section's context. -/
theorem claim10_docs_grouping (tools : List Tool) :
    ((doc_sections tools).map Prod.fst).Sorted (fun a b : String => a < b) ∧
    (∀ c, c ∈ (doc_sections tools).map Prod.fst ↔ c ∈ tools.map Tool.context) ∧
    (((doc_sections tools).map Prod.snd).flatten).Perm tools ∧
    (∀ c rows, (c, rows) ∈ doc_sections tools →
      rows.Sublist tools ∧ ∀ t ∈ rows, t.context = c) := by
  have hfst : (doc_sections tools).map Prod.fst = doc_contexts tools := by
    unfold doc_sections
    have h1 : ∀ c ∈ doc_contexts tools,
        (Prod.fst ∘ fun ctx => (ctx, tools.filter (fun t => t.context == ctx))) c = id c :=
      fun c _ => rfl
    rw [List.map_map, List.map_congr_left h1, List.map_id]
  have hsnd : (doc_sections tools).map Prod.snd
      = (doc_contexts tools).map (fun c => tools.filter (fun t => t.context == c)) := by
    unfold doc_sections
    have h2 : ∀ c ∈ doc_contexts tools,
        (Prod.snd ∘ fun ctx => (ctx, tools.filter (fun t => t.context == ctx))) c
          = (fun c2 => tools.filter (fun t => t.context == c2)) c :=
      fun c _ => rfl
    rw [List.map_map, List.map_congr_left h2]
  refine ⟨?_, ?_, ?_, ?_⟩
  · rw [hfst]
    exact doc_contexts_sorted tools
  · intro c
    rw [hfst]
    exact mem_doc_contexts tools c
  · rw [hsnd]
    apply flatten_filter_perm
    · exact doc_contexts_nodup tools
    · intro t ht
      exact (mem_doc_contexts tools t.context).mpr (List.mem_map_of_mem Tool.context ht)
  · intro c rows hmem
    unfold doc_sections at hmem
    rcases List.mem_map.mp hmem with ⟨c2, _, heq⟩
    have hc : c2 = c := congrArg Prod.fst heq
    have hr : rows = tools.filter (fun t => t.context == c2) := (congrArg Prod.snd heq).symm
    subst hc
    constructor
    · rw [hr]
      exact List.filter_sublist tools
    · intro t htr
      rw [hr] at htr
      have := (List.mem_filter.mp htr).2
      simpa using this

/-- Witness for C10 at the actual registry: flattening the generated
sections is a permutation of `TOOLS` — every registry tool appears in the
document exactly once. -/
theorem claim10_docs_grouping_witness :
    (((doc_sections TOOLS).map Prod.snd).flatten).Perm TOOLS :=
  (claim10_docs_grouping TOOLS).2.2.1

end SystemManager
